import Mathlib

/-!
Verification of the qlog structured-logging facade (package qlog,
src/qlog/logger.go) via a shallow embedding of its emission pipeline.

Modelling conventions:
* Go `interface{}` values passed as log arguments or stored in a
  fasthttp request context are modelled by `GoValue`.
* The logger's opaque context (`Logger.Context interface{}`) is modelled by
  `LoggingContext`, with one constructor per concrete dynamic type the code
  type-asserts against (`*gin.Context`, `*http.Request`,
  `*fasthttp.RequestCtx`), plus `nilCtx` for a nil interface value and
  `other` for any other dynamic type (every type assertion fails on both).
* Process environment reads are modelled by `Env`: `goDebug` is whether
  `os.LookupEnv "GO_DEBUG"` succeeds, `serviceName` the value of
  `SERVICE_NAME` when set.
* Each public logging call is pure Go code plus externally observable
  effects: the call to `logFromContext` (which performs both the context
  extraction and the SERVICE_NAME enrichment), the raw `println` write, and
  the delegation to the zap engine.  A call's behaviour is therefore
  embedded as the list of `Event`s it produces, in program order.
* `fmt.Sprintf` is embedded as `sprintf`, covering the verbs and the
  mismatch/missing-argument degradation the way Go's fmt package renders
  them (`%!d(string=x)`, `%!s(MISSING)`, ...).
* `json.Valid` (Go standard library) is an external collaborator; the
  emission functions take it as an oracle parameter `jv : String → Bool`.
* `stg.IsEmpty` (external correct-util-sdk-go dependency) reports whether
  a string is empty; modelled as equality with `""`.
-/

namespace Qlog

/-- Go `interface{}` values as they occur in this code base. -/
inductive GoValue where
  | nil
  | str (s : String)
  | int (n : Int)
  | bool (b : Bool)
  | map (m : List (String × GoValue))

/-- A zap field list: ordered (key, value) pairs, duplicates allowed. -/
abbrev Fields := List (String × GoValue)

/-- Severities used by the emission operations of logger.go. -/
inductive Severity where
  | debug
  | info
  | warn
  | error
  | fatal

/-- The process environment as read by logger.go: whether GO_DEBUG is set,
and the value of SERVICE_NAME when set. -/
structure Env where
  goDebug : Bool
  serviceName : Option String

/-- The logger's opaque context, one constructor per dynamic type the code
tests for, plus nil and a stand-in for every unrecognized type. -/
inductive LoggingContext where
  | ginCtx (store : List (String × String))
  | httpRequest
  | fasthttpCtx (store : List (String × GoValue))
  | nilCtx
  | other

/-- Logger - struct para controle de log (the zap handle is the external
engine; its behaviour is recorded as events). -/
structure Logger where
  Context : LoggingContext

/-- LoggerExtras - extras keys. -/
structure LoggerExtras where
  Key : String
  Value : List (String × GoValue)
  Filter : List String

/-- Externally observable effects of one logging call, in program order. -/
inductive Event where
  | contextExtract
  | rawWrite (line : String)
  | engineEmit (sev : Severity) (msg : String) (fields : Fields)

/-- Models `stg.IsEmpty` from the external correct-util-sdk-go dependency:
reports whether the string is empty. -/
def isEmpty (s : String) : Bool := s == ""

/-- gin's `GetString`: string lookup in the context's store, `""` when the
key is absent. -/
def lookupString (store : List (String × String)) (k : String) : String :=
  match store.find? (fun p => p.1 == k) with
  | some p => p.2
  | none => ""

/-- fasthttp's `UserValue`: lookup in the request's user-value store,
returning the nil interface value when the key is absent. -/
def userValue (store : List (String × GoValue)) (k : String) : GoValue :=
  match store.find? (fun p => p.1 == k) with
  | some p => p.2
  | none => GoValue.nil

/-- Go type name of a value, as fmt prints it in mismatch diagnostics. -/
def goTypeName : GoValue → String
  | GoValue.nil => "<nil>"
  | GoValue.str _ => "string"
  | GoValue.int _ => "int"
  | GoValue.bool _ => "bool"
  | GoValue.map _ => "map[string]interface \x7b\x7d"

mutual

/-- Default (`%v`-style) rendering of a value, as fmt prints it. -/
def goRender : GoValue → String
  | GoValue.nil => "<nil>"
  | GoValue.str s => s
  | GoValue.int n => toString n
  | GoValue.bool b => toString b
  | GoValue.map m => "map[" ++ goRenderPairs m ++ "]"

/-- Rendering of a map's entries, space separated, as fmt prints them. -/
def goRenderPairs : List (String × GoValue) → String
  | [] => ""
  | (k, v) :: rest =>
      k ++ ":" ++ goRender v ++ (if rest.isEmpty then "" else " ") ++ goRenderPairs rest

end

/-- One conversion verb applied to one argument; on a verb/argument
mismatch, fmt's degraded `%!verb(type=value)` rendering. -/
def formatVerb : Char → GoValue → String
  | 's', GoValue.str s => s
  | 'd', GoValue.int n => toString n
  | 't', GoValue.bool b => toString b
  | 'v', v => goRender v
  | c, v => "%!" ++ String.singleton c ++ "(" ++ goTypeName v ++ "=" ++ goRender v ++ ")"

/-- Leftover arguments after the format string is exhausted, appended by
fmt as `%!(EXTRA type=value)` diagnostics. -/
def extraArgs : List GoValue → String
  | [] => ""
  | a :: rest => "%!(EXTRA " ++ goTypeName a ++ "=" ++ goRender a ++ ")" ++ extraArgs rest

/-- Core of `fmt.Sprintf`: walks the format string, consuming one argument
per verb; missing arguments render as `%!verb(MISSING)`, leftover arguments
are appended as `%!(EXTRA type=value)`. Never fails. -/
def sprintfAux : List Char → List GoValue → String
  | [], args => extraArgs args
  | '%' :: '%' :: rest, args => "%" ++ sprintfAux rest args
  | '%' :: c :: rest, [] => "%!" ++ String.singleton c ++ "(MISSING)" ++ sprintfAux rest []
  | '%' :: c :: rest, a :: args => formatVerb c a ++ sprintfAux rest args
  | ['%'], _ => "%!(NOVERB)"
  | c :: rest, args => String.singleton c ++ sprintfAux rest args

/-- Model of `fmt.Sprintf` on this code base's argument values. -/
def sprintf (format : String) (args : List GoValue) : String :=
  sprintfAux format.toList args

/-- The `if service, ok := os.LookupEnv("SERVICE_NAME"); ok` append that
each recognized branch of `logFromContext` performs verbatim. -/
def serviceFields (env : Env) : Fields :=
  match env.serviceName with
  | some s => [("service", GoValue.str s)]
  | none => []

/-- `Logger.logFromContext` (logger.go:129-158): three successive type
assertions; gin and http.Request branches fall through, the fasthttp branch
returns early. -/
def logFromContext (env : Env) (ctx : LoggingContext) : Fields :=
  let fields : Fields := []
  let fields :=
    match ctx with
    | LoggingContext.ginCtx store =>
        let uuid := lookupString store "request_id"
        let fields :=
          if !(isEmpty uuid) then fields ++ [("x-request-id", GoValue.str uuid)] else fields
        fields ++ serviceFields env
    | _ => fields
  let fields :=
    match ctx with
    | LoggingContext.httpRequest => fields ++ serviceFields env
    | _ => fields
  match ctx with
  | LoggingContext.fasthttpCtx store =>
      let fields :=
        match userValue store "request_id" with
        | GoValue.str uuid => fields ++ [("x-request-id", GoValue.str uuid)]
        | _ => fields
      fields ++ serviceFields env
  | _ => fields

/-- Common body of `Logger.Fatal/Error/Warn/Info/Debug` (logger.go:49-115,
five verbatim copies differing only in the severity): GO_DEBUG bypass
prints the formatted message and returns; otherwise extract fields, format
only when arguments were passed, and delegate to the engine. -/
def severityEmit (env : Env) (sev : Severity) (l : Logger) (msg : String)
    (args : List GoValue) : List Event :=
  if env.goDebug then
    [Event.rawWrite (sprintf msg args)]
  else
    Event.contextExtract ::
      (let nrfs := logFromContext env l.Context
       let msg := if args.length > 0 then sprintf msg args else msg
       [Event.engineEmit sev msg nrfs])

/-- Fatal logs a message at FatalLevel (logger.go:49-59). -/
def Logger.Fatal (env : Env) (l : Logger) (msg : String) (args : List GoValue) : List Event :=
  severityEmit env Severity.fatal l msg args

/-- Error logs a message at ErrorLevel (logger.go:63-73). -/
def Logger.Error (env : Env) (l : Logger) (msg : String) (args : List GoValue) : List Event :=
  severityEmit env Severity.error l msg args

/-- Warn logs a message at WarnLevel (logger.go:77-87). -/
def Logger.Warn (env : Env) (l : Logger) (msg : String) (args : List GoValue) : List Event :=
  severityEmit env Severity.warn l msg args

/-- Info logs a message at InfoLevel (logger.go:91-101). -/
def Logger.Info (env : Env) (l : Logger) (msg : String) (args : List GoValue) : List Event :=
  severityEmit env Severity.info l msg args

/-- Debug logs a message at DebugLevel (logger.go:105-115). -/
def Logger.Debug (env : Env) (l : Logger) (msg : String) (args : List GoValue) : List Event :=
  severityEmit env Severity.debug l msg args

/-- `Logger.InfoJSON` (logger.go:168-182).  Note the source computes
`nrfs := l.logFromContext(l.Context)` before the GO_DEBUG bypass check, so
the extraction (with its SERVICE_NAME enrichment) runs even under bypass.
`jv` is the `json.Valid` oracle from the Go standard library. -/
def Logger.InfoJSON (jv : String → Bool) (env : Env) (l : Logger)
    (msg jbs : String) (keys : LoggerExtras) : List Event :=
  Event.contextExtract ::
    (let nrfs := logFromContext env l.Context
     if env.goDebug then
       [Event.rawWrite msg]
     else if !(jv jbs) then
       [Event.engineEmit Severity.info msg nrfs]
     else
       let nrfs :=
         if !(isEmpty keys.Key) && !keys.Value.isEmpty then
           nrfs ++ [(keys.Key, GoValue.map keys.Value)]
         else nrfs
       [Event.engineEmit Severity.info (sprintf "%s %s" [GoValue.str msg, GoValue.str jbs]) nrfs])

/-- Modelled from the spec: `EnvironmentEnricher.enrich` (§4.3), the
component the spec composes after `ContextAdapter.extract`; appends the
`service` field when SERVICE_NAME is set, else returns the set unchanged.
The source has no such separate pass; it is used to compare the spec's
pipeline with the code's. -/
def specEnrich (env : Env) (fields : Fields) : Fields :=
  match env.serviceName with
  | some s => fields ++ [("service", GoValue.str s)]
  | none => fields

/-- A `json.Valid` oracle accepting every fragment. -/
def jsonValidAny : String → Bool := fun _ => true

/-- A `json.Valid` oracle rejecting every fragment. -/
def jsonValidNone : String → Bool := fun _ => false

/-! Helper lemmas shared by the claim theorems. -/

/-- `fmt.Sprintf "%s %s"` on two strings is their space-separated
concatenation. -/
theorem sprintf_str_pair (a b : String) :
    sprintf "%s %s" [GoValue.str a, GoValue.str b] = a ++ " " ++ b := by
  show a ++ (String.singleton ' ' ++ (b ++ "")) = a ++ " " ++ b
  rw [String.append_empty, String.append_assoc]
  rfl

/-- C1 counterexample: `InfoJSON` with GO_DEBUG set still performs the
context extraction (and with it the SERVICE_NAME enrichment) before the
bypass check, so its bypassed trace contains a `contextExtract` event,
refuting the claim that every emission operation, `InfoJSON` included,
returns under bypass without any context extraction. -/
theorem claim_C1_counterexample :
    Logger.InfoJSON jsonValidAny ⟨true, some "svc"⟩
        ⟨LoggingContext.ginCtx [("request_id", "r1")]⟩ "m" "[1]" ⟨"", [], []⟩ =
      [Event.contextExtract, Event.rawWrite "m"] ∧
    Event.contextExtract ∈
      Logger.InfoJSON jsonValidAny ⟨true, some "svc"⟩
        ⟨LoggingContext.ginCtx [("request_id", "r1")]⟩ "m" "[1]" ⟨"", [], []⟩ :=
  ⟨rfl, List.mem_cons_self _ _⟩

/-- C1 (amended): when GO_DEBUG is set, each of Fatal, Error, Warn, Info and
Debug writes only the formatted message to the raw channel — no engine
call, no context extraction, no environment enrichment; `InfoJSON` also
writes only the raw message and never reaches the engine, but it performs
the context extraction (with its SERVICE_NAME enrichment) before the
bypass check. -/
theorem claim_C1_bypass :
    (∀ (env : Env) (sev : Severity) (l : Logger) (msg : String) (args : List GoValue),
      env.goDebug = true →
        severityEmit env sev l msg args = [Event.rawWrite (sprintf msg args)]) ∧
    (∀ (jv : String → Bool) (env : Env) (l : Logger) (msg jbs : String) (keys : LoggerExtras),
      env.goDebug = true →
        Logger.InfoJSON jv env l msg jbs keys = [Event.contextExtract, Event.rawWrite msg]) := by
  constructor
  · intro env sev l msg args h
    simp [severityEmit, h]
  · intro jv env l msg jbs keys h
    simp [Logger.InfoJSON, h]

/-- C1 witness: both parts of the amended bypass theorem at concrete
inputs. -/
theorem claim_C1_bypass_witness :
    severityEmit ⟨true, none⟩ Severity.info ⟨LoggingContext.other⟩ "m" [] =
      [Event.rawWrite (sprintf "m" [])] ∧
    Logger.InfoJSON jsonValidAny ⟨true, none⟩ ⟨LoggingContext.other⟩ "m" "[1]" ⟨"", [], []⟩ =
      [Event.contextExtract, Event.rawWrite "m"] :=
  ⟨claim_C1_bypass.1 ⟨true, none⟩ Severity.info ⟨LoggingContext.other⟩ "m" [] rfl,
   claim_C1_bypass.2 jsonValidAny ⟨true, none⟩ ⟨LoggingContext.other⟩ "m" "[1]" ⟨"", [], []⟩ rfl⟩

/-- C2 counterexample: with SERVICE_NAME set and an unrecognized context,
a non-bypassed emission carries an empty FieldSet — no `service` field —
whereas the spec's `enrich ∘ extract` pipeline would append one; this
refutes the claim that the record carries a `service` field regardless of
the context's shape. -/
theorem claim_C2_counterexample :
    severityEmit ⟨false, some "svc"⟩ Severity.info ⟨LoggingContext.other⟩ "m" [] =
      [Event.contextExtract, Event.engineEmit Severity.info "m" []] ∧
    specEnrich ⟨false, some "svc"⟩ (logFromContext ⟨false, some "svc"⟩ LoggingContext.other) =
      [("service", GoValue.str "svc")] ∧
    ([] : Fields) ≠ [("service", GoValue.str "svc")] :=
  ⟨rfl, rfl, by simp⟩

/-- C2 (amended): for every non-bypassed severity emission the emitted
FieldSet is exactly `logFromContext` applied to the logger's context — a
fused extract-and-enrich pass that appends the `service` field only inside
a recognized shape's branch — so for a context matching none of the shapes
the emitted FieldSet is empty even when SERVICE_NAME is set. -/
theorem claim_C2_fields :
    (∀ (env : Env) (sev : Severity) (l : Logger) (msg : String) (args : List GoValue),
      env.goDebug = false →
        severityEmit env sev l msg args =
          [Event.contextExtract,
           Event.engineEmit sev (if args.length > 0 then sprintf msg args else msg)
             (logFromContext env l.Context)]) ∧
    (∀ env : Env, logFromContext env LoggingContext.other = []) := by
  constructor
  · intro env sev l msg args h
    simp [severityEmit, h]
  · intro env
    rfl

/-- C2 witness: the amended theorem at a concrete input with SERVICE_NAME
set and an unrecognized context. -/
theorem claim_C2_fields_witness :
    severityEmit ⟨false, some "svc"⟩ Severity.info ⟨LoggingContext.other⟩ "m" [] =
      [Event.contextExtract, Event.engineEmit Severity.info "m"
        (logFromContext ⟨false, some "svc"⟩ LoggingContext.other)] ∧
    logFromContext ⟨false, some "svc"⟩ LoggingContext.other = [] :=
  ⟨claim_C2_fields.1 ⟨false, some "svc"⟩ Severity.info ⟨LoggingContext.other⟩ "m" [] rfl,
   claim_C2_fields.2 ⟨false, some "svc"⟩⟩

/-- C3: `InfoJSON` with a valid fragment, a non-empty extras key and a
non-empty extras value emits at Info severity the extracted-and-enriched
fields plus one `extras.key = extras.value` field, with message
`message ++ " " ++ jsonFragment`; the `extras.filter` list has no effect
on the result. -/
theorem claim_C3_json_merge (jv : String → Bool) (env : Env) (l : Logger)
    (msg jbs : String) (keys : LoggerExtras) (hb : env.goDebug = false)
    (hv : jv jbs = true) (hk : keys.Key ≠ "") (hval : keys.Value ≠ []) :
    Logger.InfoJSON jv env l msg jbs keys =
      [Event.contextExtract,
       Event.engineEmit Severity.info (msg ++ " " ++ jbs)
         (logFromContext env l.Context ++ [(keys.Key, GoValue.map keys.Value)])] ∧
    (∀ f1 f2 : List String,
      Logger.InfoJSON jv env l msg jbs ⟨keys.Key, keys.Value, f1⟩ =
        Logger.InfoJSON jv env l msg jbs ⟨keys.Key, keys.Value, f2⟩) := by
  constructor
  · simp [Logger.InfoJSON, hb, hv, isEmpty, hk, hval, sprintf_str_pair]
  · intro f1 f2
    rfl

/-- C3 witness: the JSON-merge theorem at the spec's concrete example
shape (valid fragment, extras key `meta`). -/
theorem claim_C3_json_merge_witness :
    Logger.InfoJSON jsonValidAny ⟨false, none⟩ ⟨LoggingContext.other⟩ "order" "[1]"
        ⟨"meta", [("a", GoValue.int 1)], []⟩ =
      [Event.contextExtract,
       Event.engineEmit Severity.info "order [1]"
         [("meta", GoValue.map [("a", GoValue.int 1)])]] :=
  (claim_C3_json_merge jsonValidAny ⟨false, none⟩ ⟨LoggingContext.other⟩ "order" "[1]"
    ⟨"meta", [("a", GoValue.int 1)], []⟩ rfl rfl (by decide) (by simp)).1

/-- C4: `InfoJSON` with an invalid fragment and bypass inactive emits at
Info severity the extracted-and-enriched fields with the message alone;
the fragment and the extras (universally quantified here) are discarded
and the call returns normally, surfacing no error. -/
theorem claim_C4_invalid_json (jv : String → Bool) (env : Env) (l : Logger)
    (msg jbs : String) (keys : LoggerExtras) (hb : env.goDebug = false)
    (hv : jv jbs = false) :
    Logger.InfoJSON jv env l msg jbs keys =
      [Event.contextExtract,
       Event.engineEmit Severity.info msg (logFromContext env l.Context)] := by
  simp [Logger.InfoJSON, hb, hv]

/-- C4 witness: the invalid-fragment theorem at a concrete input, extras
present but discarded. -/
theorem claim_C4_invalid_json_witness :
    Logger.InfoJSON jsonValidNone ⟨false, none⟩ ⟨LoggingContext.other⟩ "order" "nope"
        ⟨"meta", [("a", GoValue.int 1)], []⟩ =
      [Event.contextExtract, Event.engineEmit Severity.info "order" []] :=
  claim_C4_invalid_json jsonValidNone ⟨false, none⟩ ⟨LoggingContext.other⟩ "order" "nope"
    ⟨"meta", [("a", GoValue.int 1)], []⟩ rfl rfl

/-- C5: for a gin-style context, extraction yields exactly one
`x-request-id` field equal to the non-empty `request_id` lookup — or none
when the lookup is empty — followed by the `service` field exactly when
SERVICE_NAME is set (`serviceFields`). -/
theorem claim_C5_gin_extract (env : Env) (store : List (String × String)) :
    logFromContext env (LoggingContext.ginCtx store) =
      (if lookupString store "request_id" = "" then []
       else [("x-request-id", GoValue.str (lookupString store "request_id"))]) ++
        serviceFields env := by
  by_cases h : lookupString store "request_id" = "" <;>
    simp [logFromContext, isEmpty, h]

/-- C6: a context matching none of the recognized shapes, or an absent
(nil) context, extracts to the empty FieldSet; being a total function, the
extraction never raises. -/
theorem claim_C6_unmatched_empty (env : Env) :
    logFromContext env LoggingContext.other = [] ∧
    logFromContext env LoggingContext.nilCtx = [] :=
  ⟨rfl, rfl⟩

/-- C7: a fasthttp-style context is decided entirely by its own branch —
extraction returns exactly that branch's contribution (the store's
`request_id` entry when it is a string, then the service field), no other
shape's rule applying; with an empty store (absent entry) it still returns,
with just the service contribution. -/
theorem claim_C7_fasthttp_early_return (env : Env) (store : List (String × GoValue)) :
    logFromContext env (LoggingContext.fasthttpCtx store) =
      (match userValue store "request_id" with
       | GoValue.str u => [("x-request-id", GoValue.str u)]
       | _ => []) ++ serviceFields env ∧
    logFromContext env (LoggingContext.fasthttpCtx []) = serviceFields env := by
  constructor
  · cases h : userValue store "request_id" <;> simp [logFromContext, h]
  · rfl

/-- C8: without bypass, an empty argument list delivers the caller's
message verbatim to the engine at the requested severity, and a non-empty
one delivers its printf-style formatting. -/
theorem claim_C8_format_on_args (env : Env) (sev : Severity) (l : Logger)
    (msg : String) (args : List GoValue) (h : env.goDebug = false) :
    (args = [] →
      severityEmit env sev l msg args =
        [Event.contextExtract, Event.engineEmit sev msg (logFromContext env l.Context)]) ∧
    (args ≠ [] →
      severityEmit env sev l msg args =
        [Event.contextExtract,
         Event.engineEmit sev (sprintf msg args) (logFromContext env l.Context)]) := by
  constructor
  · intro ha
    subst ha
    simp [severityEmit, h]
  · intro ha
    simp [severityEmit, h, List.length_pos.mpr ha]

/-- C8 witness: both argument cases at concrete inputs. -/
theorem claim_C8_format_on_args_witness :
    severityEmit ⟨false, none⟩ Severity.info ⟨LoggingContext.other⟩ "m" [] =
      [Event.contextExtract, Event.engineEmit Severity.info "m" []] ∧
    severityEmit ⟨false, none⟩ Severity.info ⟨LoggingContext.other⟩ "n=%d" [GoValue.int 2] =
      [Event.contextExtract,
       Event.engineEmit Severity.info (sprintf "n=%d" [GoValue.int 2]) []] :=
  ⟨(claim_C8_format_on_args ⟨false, none⟩ Severity.info ⟨LoggingContext.other⟩ "m" [] rfl).1 rfl,
   (claim_C8_format_on_args ⟨false, none⟩ Severity.info ⟨LoggingContext.other⟩ "n=%d"
      [GoValue.int 2] rfl).2 (by simp)⟩

/-- C9: a non-bypassed severity emission always delegates some message
string to the engine at the requested severity with the extracted fields;
the formatter is total, so a verb/argument mismatch degrades the text
instead of raising. -/
theorem claim_C9_never_fails (env : Env) (sev : Severity) (l : Logger)
    (msg : String) (args : List GoValue) (h : env.goDebug = false) :
    ∃ m : String, severityEmit env sev l msg args =
      [Event.contextExtract, Event.engineEmit sev m (logFromContext env l.Context)] := by
  refine ⟨if args.length > 0 then sprintf msg args else msg, ?_⟩
  simp [severityEmit, h]

/-- C9 witness: the spec's mismatch example `Info("value %d",
"not-a-number")` still delegates at Info severity. -/
theorem claim_C9_never_fails_witness :
    ∃ m : String,
      severityEmit ⟨false, none⟩ Severity.info ⟨LoggingContext.other⟩ "value %d"
          [GoValue.str "not-a-number"] =
        [Event.contextExtract, Event.engineEmit Severity.info m []] :=
  claim_C9_never_fails ⟨false, none⟩ Severity.info ⟨LoggingContext.other⟩ "value %d"
    [GoValue.str "not-a-number"] rfl

/-- C10: a fasthttp-style context whose `request_id` user value is the
empty string still emits an `x-request-id` field (with empty value: no
non-emptiness check on that branch), while a gin-style context with an
empty `request_id` lookup emits no `x-request-id` field at all. -/
theorem claim_C10_empty_id_asymmetry (env : Env) :
    logFromContext env (LoggingContext.fasthttpCtx [("request_id", GoValue.str "")]) =
      ("x-request-id", GoValue.str "") :: serviceFields env ∧
    logFromContext env (LoggingContext.ginCtx [("request_id", "")]) = serviceFields env :=
  ⟨rfl, rfl⟩

end Qlog
